import Mathlib

/-!
Verification development for the span-tree aggregation and rendering engine of
the `tracing-profile` crate.  The definitions below are a shallow embedding of
the Rust sources:

* `src/data/field_visitor.rs` — `CounterValue`, `CounterVisitor`,
  `WritingFieldVisitor`, `StoringFieldVisitor`;
* `src/data/event_counts.rs` — `EventCounts`;
* `src/layers/graph.rs` — `Config`, `State`, `Guard`, the five
  `tracing_subscriber::Layer` callbacks, and the `GraphNode` tree algorithms.

Modelling conventions:
* `u64` is modelled as `Nat`, with `% 2 ^ 64` at additions (release-mode
  wrapping semantics); `i64`-to-`u64` casts are `Int.emod` by `2 ^ 64`.
* `f64` values are modelled as exact rationals `ℚ`; every concrete value used
  in the development (2.5, 0.5, …) is exactly representable in binary64, and
  no theorem depends on rounding of inexact operations.  A division result is
  an `F64Val`, which makes the IEEE special values (`NaN`, `±∞`) explicit
  instead of letting `ℚ`'s total division by zero hide them.
* `std::time::Duration` is modelled as a number of nanoseconds (`Nat`);
  `Duration::as_secs_f64` divides by `10 ^ 9`.
* `linear_map::LinearMap` is modelled as an insertion-ordered association
  list with unique keys (`lmGet`/`lmInsert`/`lmUpdate`/`lmRemove`).
* `tracing` framework inputs (span ids, resolved span names, resolved parent
  ids, the framework's ambient current span, thread identity, the monotonic
  clock) are parameters of the lifecycle operations, matching §6 of the spec:
  they are produced by the excluded host framework.
* `println!`/`eprintln!` effects are modelled as explicit output items and
  error flags returned by the operations.
-/

/-- `2 ^ 64`, the modulus of `u64` arithmetic. -/
def U64 : Nat := 2 ^ 64

/-- Rust `f64 as u64` cast: truncation toward zero, saturating at the bounds
(negative values go to `0`, values at or above `2 ^ 64` go to `u64::MAX`).
Our rational model has no `NaN` input case. -/
def ratToU64 (q : ℚ) : Nat := min (max ⌊q⌋ 0).toNat (U64 - 1)

/-- `CounterValue` from `src/data/field_visitor.rs`: tagged union of a `u64`
or an `f64` accumulation. -/
inductive CounterValue where
  | int (v : Nat)
  | float (v : ℚ)
deriving DecidableEq

/-- `Default for CounterValue` is `Int(0)`. -/
def CounterValue.default : CounterValue := .int 0

/-- `impl AddAssign for CounterValue` (field_visitor.rs lines 135–144).
Note the `Int`-left cases keep the `Int` tag: `Int += Float` truncates the
float operand with `as u64`. -/
def CounterValue.addAssign : CounterValue → CounterValue → CounterValue
  | .int l, .int r => .int ((l + r) % U64)
  | .int l, .float r => .int ((l + ratToU64 r) % U64)
  | .float l, .int r => .float (l + (r : ℚ))
  | .float l, .float r => .float (l + r)

/-- `impl AddAssign<u64> for CounterValue` (field_visitor.rs lines 146–153). -/
def CounterValue.addU64 : CounterValue → Nat → CounterValue
  | .int l, r => .int ((l + r) % U64)
  | .float l, r => .float (l + (r : ℚ))

/-- Tag test: is the value an `Int`? -/
def CounterValue.isInt : CounterValue → Bool
  | .int _ => true
  | .float _ => false

/-- Tag test: is the value a `Float`? -/
def CounterValue.isFloat : CounterValue → Bool
  | .int _ => false
  | .float _ => true

/-- Rendering of a rational that stands for an `f64`.  Rust's `Display` for
`f64` prints the shortest decimal that round-trips; we use an injective
rendering of the exact value instead (integers print identically, and no
theorem depends on the text of a non-integer float). -/
def fmtRat (q : ℚ) : String :=
  if q.den = 1 then toString q.num else toString q.num ++ "/" ++ toString q.den

/-- `impl Display for CounterValue`. -/
def CounterValue.display : CounterValue → String
  | .int v => toString v
  | .float v => fmtRat v

/-! ### Association lists: the `linear_map::LinearMap` model -/

/-- `LinearMap::get`: first (unique) entry with the given key. -/
def lmGet {κ α : Type} [DecidableEq κ] : List (κ × α) → κ → Option α
  | [], _ => none
  | p :: rest, k => if p.1 = k then some p.2 else lmGet rest k

/-- `LinearMap::insert`: replace the value in place if the key is present,
otherwise append the new entry. -/
def lmInsert {κ α : Type} [DecidableEq κ] : List (κ × α) → κ → α → List (κ × α)
  | [], k, v => [(k, v)]
  | p :: rest, k, v => if p.1 = k then (k, v) :: rest else p :: lmInsert rest k v

/-- `LinearMap::get_mut` followed by a mutation: update the entry with the
given key in place, no-op when absent. -/
def lmUpdate {κ α : Type} [DecidableEq κ] : List (κ × α) → κ → (α → α) → List (κ × α)
  | [], _, _ => []
  | p :: rest, k, f => if p.1 = k then (p.1, f p.2) :: rest else p :: lmUpdate rest k f

/-- `LinearMap::remove`: drop the entry with the given key.  (The crate uses a
swap-remove internally; no operation of the engine observes the registry's
entry order, so the order-preserving removal is an equivalent model.) -/
def lmRemove {κ α : Type} [DecidableEq κ] : List (κ × α) → κ → List (κ × α)
  | [], _ => []
  | p :: rest, k => if p.1 = k then rest else p :: lmRemove rest k

/-! ### Events and field visitors -/

/-- A typed `tracing` field value, covering the `Visit` callbacks the source
implements (`record_u64`, `record_i64`, `record_f64`, `record_bool`,
`record_str`). -/
inductive FieldValue where
  | u (v : Nat)
  | i (v : Int)
  | f (v : ℚ)
  | b (v : Bool)
  | s (v : String)
deriving DecidableEq

/-- How `WritingFieldVisitor` renders one field value with `write!("{}")`. -/
def FieldValue.render : FieldValue → String
  | .u v => toString v
  | .i v => toString v
  | .f v => fmtRat v
  | .b v => toString v
  | .s v => v

/-- A `tracing::Event`: its metadata name and its ordered fields. -/
structure Event where
  name : String
  fields : List (String × FieldValue)
deriving DecidableEq

/-- `CounterVisitor` from field_visitor.rs: the data extracted from an event's
fields. -/
structure CounterVisitor where
  value : Option CounterValue
  unit : Option String
  category : Option String
  is_counter : Bool
  is_incremental : Bool
deriving DecidableEq

/-- The initial (Default) `CounterVisitor`. -/
def CounterVisitor.init : CounterVisitor :=
  { value := none, unit := none, category := none,
    is_counter := false, is_incremental := false }

/-- One `Visit` callback of `CounterVisitor`: `record_u64`/`record_i64`/
`record_f64` capture a field named `value`; `record_bool` captures `counter`
and `incremental`; `record_str` captures `perfetto_category` and `unit`. -/
def CounterVisitor.visit (cv : CounterVisitor) (fld : String × FieldValue) : CounterVisitor :=
  match fld.2 with
  | .u v => if fld.1 = "value" then { cv with value := some (.int v) } else cv
  | .i v => if fld.1 = "value" then { cv with value := some (.int ((v % (U64 : Int)).toNat)) } else cv
  | .f v => if fld.1 = "value" then { cv with value := some (.float v) } else cv
  | .b v =>
    if fld.1 = "counter" then { cv with is_counter := v }
    else if fld.1 = "incremental" then { cv with is_incremental := v }
    else cv
  | .s v =>
    if fld.1 = "perfetto_category" then { cv with category := some v }
    else if fld.1 = "unit" then { cv with unit := some v }
    else cv

/-- `event.record(&mut CounterVisitor::default())`: fold the visitor over the
event's fields in order. -/
def runCounterVisitor (fields : List (String × FieldValue)) : CounterVisitor :=
  fields.foldl CounterVisitor.visit CounterVisitor.init

/-- The string `WritingFieldVisitor` produces for the fields of an event:
`"name: value"` pairs joined by `", "` (event_counts.rs lines 49–53 wrap it
as `"{name} {{ {fields} }}"`). -/
def eventSignature (e : Event) : String :=
  e.name ++ " \x7b " ++ String.intercalate ", " (e.fields.map (fun p => p.1 ++ ": " ++ p.2.render)) ++ " \x7d"

/-! ### `EventCounts` (src/data/event_counts.rs) -/

/-- `EventCounts`: mapping from a signature string to a `CounterValue`.
The `buffer: String` field of the source is a reusable allocation for building
the signature and carries no observable state; it is omitted. -/
structure EventCounts where
  counters : List (String × CounterValue)
deriving DecidableEq

/-- `Default for EventCounts`. -/
def EventCounts.empty : EventCounts := ⟨[]⟩

/-- `EventCounts::is_empty`. -/
def EventCounts.isEmpty (ec : EventCounts) : Bool := ec.counters.isEmpty

/-- One step of `AddAssign<&EventCounts>`: fold a single right-hand entry in
(`get_mut` + `+=` when the key is present, `insert` otherwise; the key is
fresh in the inserting case, so the `insert` is an append). -/
def ecAdd1 (m : List (String × CounterValue)) (k : String) (v : CounterValue) :
    List (String × CounterValue) :=
  match lmGet m k with
  | some _ => lmUpdate m k (fun w => w.addAssign v)
  | none => m ++ [(k, v)]

/-- `impl AddAssign<&EventCounts> for EventCounts` (event_counts.rs lines
103–114): key-wise merge, left-to-right over the right-hand entries. -/
def EventCounts.addAssign (x y : EventCounts) : EventCounts :=
  ⟨y.counters.foldl (fun m p => ecAdd1 m p.1 p.2) x.counters⟩

/-- `EventCounts::increment_events_counter` (also the body of the no-field and
non-counter branches of `record`): `+= 1u64` when present, insert `Int(1)`
otherwise. -/
def EventCounts.incrementEventsCounter (ec : EventCounts) (name : String) : EventCounts :=
  match lmGet ec.counters name with
  | some _ => ⟨lmUpdate ec.counters name (fun w => w.addU64 1)⟩
  | none => ⟨ec.counters ++ [(name, .int 1)]⟩

/-- `EventCounts::record` (event_counts.rs lines 21–64).  The returned `Bool`
is `true` exactly when the `err_msg!` diagnostic fires (a non-fatal
`eprintln!`, unless the `panic` feature is enabled). -/
def EventCounts.record (ec : EventCounts) (e : Event) : EventCounts × Bool :=
  if e.fields.isEmpty then
    (ec.incrementEventsCounter e.name, false)
  else
    let data := runCounterVisitor e.fields
    if data.is_counter then
      match lmGet ec.counters e.name, data.value with
      | none, some newValue => (⟨ec.counters ++ [(e.name, newValue)]⟩, false)
      | some _, some newValue => (⟨lmUpdate ec.counters e.name (fun w => w.addAssign newValue)⟩, false)
      | _, _ => (ec, true)
    else
      (ec.incrementEventsCounter (eventSignature e), false)

/-- Stable insertion into a key-sorted list (strictly-smaller keys pass;
insertion lands after equal keys), the building block of a stable sort. -/
def insertByKey (p : String × CounterValue) :
    List (String × CounterValue) → List (String × CounterValue)
  | [] => [p]
  | q :: rest => if p.1 < q.1 then p :: q :: rest else q :: insertByKey p rest

/-- Stable insertion sort by key, modelling the stable `sort_by_key` of
`EventCounts::format`. -/
def sortByKey : List (String × CounterValue) → List (String × CounterValue)
  | [] => []
  | p :: rest => insertByKey p (sortByKey rest)

/-- `EventCounts::format`: `"{name}: {count}"` lines, sorted by signature. -/
def EventCounts.format (ec : EventCounts) : List String :=
  (sortByKey ec.counters).map (fun p => p.1 ++ ": " ++ p.2.display)

/-- The `LinearMap` key-uniqueness invariant, which every reachable
`EventCounts` satisfies. -/
def EventCounts.WF (ec : EventCounts) : Prop := (ec.counters.map Prod.fst).Nodup

/-- Spec-side helper (§3 of the spec, claim C6): the signature key `record`
files an event under — the event name when the event has no fields, the event
name again for counter-marked events, and the synthesized
`"name { field: value, ... }"` string otherwise. -/
def EventCounts.recordKey (e : Event) : String :=
  if e.fields.isEmpty then e.name
  else if (runCounterVisitor e.fields).is_counter then e.name
  else eventSignature e

/-- Spec-side helper (claim C8): key-wise addition of optional counter
values, the pointwise form of `EventCounts` merging. -/
def optAdd : Option CounterValue → Option CounterValue → Option CounterValue
  | none, r => r
  | some v, none => some v
  | some v, some w => some (v.addAssign w)

/-! ### The `f64` result model and durations -/

/-- The value of an `f64` expression whose operands are nonnegative finite
numbers: a finite rational, or one of the IEEE special values a division by
zero produces. -/
inductive F64Val where
  | fin (q : ℚ)
  | nan
  | posInf
  | negInf
deriving DecidableEq

/-- IEEE `f64` division restricted to finite operands: division by zero gives
`NaN` for a zero numerator and a signed infinity otherwise. -/
def fdiv (a b : ℚ) : F64Val :=
  if b = 0 then (if a = 0 then .nan else if a > 0 then .posInf else .negInf)
  else .fin (a / b)

/-- `f64 > threshold` for a finite threshold: `NaN` compares false, `+∞`
compares true. -/
def F64Val.gtQ : F64Val → ℚ → Bool
  | .fin q, t => decide (q > t)
  | .nan, _ => false
  | .posInf, _ => true
  | .negInf, _ => false

/-- `f64 < threshold` for a finite threshold: `NaN` and `+∞` compare false. -/
def F64Val.ltQ : F64Val → ℚ → Bool
  | .fin q, t => decide (q < t)
  | .nan, _ => false
  | .posInf, _ => false
  | .negInf, _ => true

/-- `Duration::as_secs_f64` on a duration held as nanoseconds. -/
def asSecsF64 (d : Nat) : ℚ := (d : ℚ) / 1000000000

/-! ### `GraphNode` and the tree algorithms (src/layers/graph.rs) -/

/-- `GraphNode`: one span's contribution to the tree.  Fields in source
order: `name`, `started`, `execution_duration`, `metadata`, `events`,
`child_nodes`, `call_count`.  `started` and the durations are instants and
nanosecond counts of the modelled monotonic clock. -/
inductive GraphNode where
  | mk : String → Option Nat → Nat → List (String × String) → EventCounts →
      List GraphNode → Nat → GraphNode

/-- The span's declared name. -/
def GraphNode.name : GraphNode → String
  | .mk nm _ _ _ _ _ _ => nm

/-- The optional start instant. -/
def GraphNode.started : GraphNode → Option Nat
  | .mk _ st _ _ _ _ _ => st

/-- The wall-clock duration, in nanoseconds. -/
def GraphNode.executionDuration : GraphNode → Nat
  | .mk _ _ d _ _ _ _ => d

/-- The span's recorded attributes. -/
def GraphNode.metadata : GraphNode → List (String × String)
  | .mk _ _ _ md _ _ _ => md

/-- The span's accumulated events. -/
def GraphNode.events : GraphNode → EventCounts
  | .mk _ _ _ _ ev _ _ => ev

/-- The completed children, in completion order. -/
def GraphNode.childNodes : GraphNode → List GraphNode
  | .mk _ _ _ _ _ cs _ => cs

/-- The call count (1 at creation, summed by aggregation). -/
def GraphNode.callCount : GraphNode → Nat
  | .mk _ _ _ _ _ _ cc => cc

/-- `Default for GraphNode` (derived): empty name, no start, zero duration,
empty maps, no children, call count 0. -/
def GraphNode.defaultNode : GraphNode := .mk "" none 0 [] EventCounts.empty [] 0

/-- `GraphNode::new(name)`: default node with the given name. -/
def GraphNode.new (name : String) : GraphNode := .mk name none 0 [] EventCounts.empty [] 0

/-- Functional update of `name`. -/
def GraphNode.withName : GraphNode → String → GraphNode
  | .mk _ st d md ev cs cc, nm => .mk nm st d md ev cs cc

/-- Functional update of `started`. -/
def GraphNode.withStarted : GraphNode → Option Nat → GraphNode
  | .mk nm _ d md ev cs cc, st => .mk nm st d md ev cs cc

/-- Functional update of `execution_duration`. -/
def GraphNode.withDuration : GraphNode → Nat → GraphNode
  | .mk nm st _ md ev cs cc, d => .mk nm st d md ev cs cc

/-- Functional update of `metadata`. -/
def GraphNode.withMetadata : GraphNode → List (String × String) → GraphNode
  | .mk nm st d _ ev cs cc, md => .mk nm st d md ev cs cc

/-- Functional update of `events`. -/
def GraphNode.withEvents : GraphNode → EventCounts → GraphNode
  | .mk nm st d md _ cs cc, ev => .mk nm st d md ev cs cc

/-- `parent_node.child_nodes.push(node)`. -/
def GraphNode.addChild : GraphNode → GraphNode → GraphNode
  | .mk nm st d md ev cs cc, c => .mk nm st d md ev (cs ++ [c]) cc

/-- `metadata.insert(key, value)` on a node. -/
def GraphNode.insertMeta : GraphNode → String → String → GraphNode
  | .mk nm st d md ev cs cc, k, v => .mk nm st d (lmInsert md k v) ev cs cc

/-- `GraphNode::execution_percentage` (graph.rs lines 318–320):
`100.0 * self.execution_duration.as_secs_f64() / root_time.as_secs_f64()`,
with no special case for a zero root duration. -/
def GraphNode.executionPercentage (n : GraphNode) (rootTime : Nat) : F64Val :=
  fdiv (100 * asSecsF64 n.executionDuration) (asSecsF64 rootTime)

/-- `GraphNode::aggregate` (graph.rs lines 456–462): sum durations, call
counts and events; keep the left node's name and metadata. -/
def GraphNode.aggregate : GraphNode → GraphNode → GraphNode
  | .mk nm st d md ev cs cc, other =>
    .mk nm st (d + other.executionDuration) md (ev.addAssign other.events) cs
      (cc + other.callCount)

/-- `GraphNode::record_self_as_event`. -/
def GraphNode.recordSelf : GraphNode → GraphNode
  | .mk nm st d md ev cs cc => .mk nm st d md (ev.incrementEventsCounter nm) cs cc

mutual

/-- `GraphNode::accumulate_children_events` (graph.rs lines 322–333): for each
child in order, recurse into the child, optionally record the child as an
event of its own name, then fold the child's events into this node. -/
def GraphNode.accumulateChildrenEvents : GraphNode → Bool → GraphNode
  | .mk nm st d md ev cs cc, sc =>
    let r := GraphNode.accumulateChildrenList ev cs sc
    .mk nm st d md r.1 r.2 cc

/-- The loop body of `accumulate_children_events`: walk the children carrying
the parent's events accumulator, returning the final accumulator and the
mutated children (the source mutates them through `iter_mut`). -/
def GraphNode.accumulateChildrenList :
    EventCounts → List GraphNode → Bool → EventCounts × List GraphNode
  | ev, [], _ => (ev, [])
  | ev, c :: rest, sc =>
    let c1 := c.accumulateChildrenEvents sc
    let c2 := if sc then c1.recordSelf else c1
    let r := GraphNode.accumulateChildrenList (ev.addAssign c2.events) rest sc
    (r.1, c2 :: r.2)

end

/-- Tree layer `Config` (graph.rs lines 17–52), thresholds as exact `f64`
values.  There is no deferred-printing field: the source has none. -/
structure Config where
  attention_above_percent : ℚ
  relevant_above_percent : ℚ
  hide_below_percent : ℚ
  display_unaccounted : Bool
  accumulate_events : Bool
  accumulate_spans_count : Bool
  no_color : Bool

/-- `Config::from_env` with no environment overrides set: the documented
defaults (graph.rs lines 55–65). -/
def Config.defaults : Config :=
  { attention_above_percent := 25
    relevant_above_percent := 5 / 2
    hide_below_percent := 1
    display_unaccounted := false
    accumulate_events := true
    accumulate_spans_count := false
    no_color := false }

/-- The sibling-scan loop of `GraphNode::render_tree` (graph.rs lines
388–414), recursing over the remaining children.  Arguments after the config:
the children still to visit, the pending `aggregated_node`, and the
`name_counter` map.  At each child the source inspects the *next* child: a
same-named next child routes the current one either to an indexed copy (above
the `relevant_above_percent` threshold) or into the pending aggregate;
otherwise the pending aggregate — if any — is pushed *instead of* the current
child. -/
def GraphNode.renderChildrenGo (rootTime : Nat) (cfg : Config) :
    List GraphNode → Option GraphNode → List (String × Nat) → List GraphNode
  | [], _, _ => []
  | c :: rest, agg, counter =>
    let nameCount := (lmGet counter c.name).getD 0 + 1
    let counter := lmInsert counter c.name nameCount
    match rest.head? with
    | some next =>
      if next.name = c.name then
        if (c.executionPercentage rootTime).gtQ cfg.relevant_above_percent then
          c.insertMeta "index" (toString nameCount) ::
            GraphNode.renderChildrenGo rootTime cfg rest agg counter
        else
          GraphNode.renderChildrenGo rootTime cfg rest
            (some (match agg with
              | some node => node.aggregate c
              | none => c)) counter
      else
        agg.getD c :: GraphNode.renderChildrenGo rootTime cfg rest none counter
    | none =>
      agg.getD c :: GraphNode.renderChildrenGo rootTime cfg rest none counter

/-- The sibling-aggregation stage of `render_tree` applied to a node's
children. -/
def GraphNode.buildChildren (n : GraphNode) (rootTime : Nat) (cfg : Config) :
    List GraphNode :=
  GraphNode.renderChildrenGo rootTime cfg n.childNodes none []

/-- One step of the below-threshold collapsing fold of `render_tree`
(graph.rs lines 416–432): a sub-threshold child is merged into a trailing
`"[...]"` bucket, appended as a fresh bucket after a kept child, or — when
the accumulator is still empty — dropped (`acc.last_mut()` is `None`). -/
def GraphNode.collapseStep (rootTime : Nat) (cfg : Config)
    (acc : List GraphNode) (child : GraphNode) : List GraphNode :=
  if (child.executionPercentage rootTime).ltQ cfg.hide_below_percent then
    match acc.getLast? with
    | none => acc
    | some x =>
      if x.name = "[...]" then acc.dropLast ++ [x.aggregate child]
      else acc ++ [(GraphNode.new "[...]").aggregate child]
  else acc ++ [child]

/-- The below-threshold collapsing stage of `render_tree`: the fold runs only
when `hide_below_percent > 0.0`. -/
def GraphNode.collapseChildren (rootTime : Nat) (cfg : Config)
    (children : List GraphNode) : List GraphNode :=
  if cfg.hide_below_percent > 0 then
    children.foldl (GraphNode.collapseStep rootTime cfg) []
  else children

/-- `GraphNode::print` up to the point the tree text is written: the node a
root is rendered from — events accumulated into ancestors when
`accumulate_events` is set (graph.rs lines 341–348). -/
def GraphNode.printedNode (cfg : Config) (n : GraphNode) : GraphNode :=
  if cfg.accumulate_events then n.accumulateChildrenEvents cfg.accumulate_spans_count
  else n

/-! ### Aggregation state and lifecycle callbacks (graph.rs lines 74–297) -/

/-- `State`: the shared aggregation state behind the mutex. -/
structure LayerState where
  currentSpan : Option Nat
  unfinishedSpans : List (Nat × GraphNode)
  zeroLevelEvents : EventCounts

/-- `State::default()`. -/
def LayerState.empty : LayerState := ⟨none, [], EventCounts.empty⟩

/-- One observable output of a lifecycle operation: a block of zero-level
event lines (`"> name: count"`), or a rendered root tree.  The tree text
itself is a pure function of the carried node and config; the machine tracks
the node being rendered. -/
inductive OutputItem where
  | zeroEvents (lines : List String)
  | tree (root : GraphNode)

/-- `State::print_zero_level_events` (graph.rs lines 82–88): print and clear
the buffer when it is non-empty. -/
def LayerState.printZeroLevelEvents (st : LayerState) : LayerState × List OutputItem :=
  if st.zeroLevelEvents.isEmpty then (st, [])
  else ({ st with zeroLevelEvents := EventCounts.empty },
    [.zeroEvents st.zeroLevelEvents.format])

/-- The node `on_exit` finalizes: the entry removed from the registry (or the
default node when absent), with duration `now − started` (zero when never
entered) and the resolved span name. -/
def LayerState.exitingNode (st : LayerState) (id : Nat) (name : String) (now : Nat) :
    GraphNode :=
  let n := (lmGet st.unfinishedSpans id).getD GraphNode.defaultNode
  (n.withDuration (match n.started with
    | some s => now - s
    | none => 0)).withName name

/-- `StoringFieldVisitor` over a record of already-stringified fields: each
field is inserted into the metadata map in order. -/
def storeFields (md : List (String × String)) (fields : List (String × String)) :
    List (String × String) :=
  fields.foldl (fun acc kv => lmInsert acc kv.1 kv.2) md

/-- A lifecycle notification from the host framework, with the
framework-supplied context resolved: `isMain` is whether the calling thread
is the layer's main thread; `now` is the monotonic clock at the call;
`parent` of `exitSpan` is `ctx.span(id).parent()`; `ctxCurrent` of `event` is
the framework's ambient current span on the calling thread; `isRoot` is
`Event::is_root`. -/
inductive Op where
  | newSpan (isMain : Bool) (id : Nat) (attrs : List (String × String))
  | recordSpan (isMain : Bool) (id : Nat) (vals : List (String × String))
  | enterSpan (isMain : Bool) (id : Nat) (now : Nat)
  | exitSpan (isMain : Bool) (id : Nat) (name : String) (parent : Option Nat) (now : Nat)
  | event (isMain : Bool) (e : Event) (isRoot : Bool) (explicitParent : Option Nat)
      (ctxCurrent : Option Nat)
  | guardDrop

/-- The five `Layer` callbacks of graph.rs plus `Guard::drop`, as one step
function over the shared state.  Returns the new state and the emitted
output. -/
def LayerState.step (cfg : Config) (st : LayerState) : Op → LayerState × List OutputItem
  | .newSpan isMain id attrs =>
    if isMain then
      let node : GraphNode := .mk "" none 0 (storeFields [] attrs) EventCounts.empty [] 1
      ({ st with unfinishedSpans := lmInsert st.unfinishedSpans id node }, [])
    else (st, [])
  | .recordSpan isMain id vals =>
    if isMain then
      let spans := lmUpdate st.unfinishedSpans id
        (fun n => n.withMetadata (storeFields n.metadata vals))
      ({ st with unfinishedSpans := spans }, [])
    else (st, [])
  | .enterSpan isMain id now =>
    if isMain then
      LayerState.printZeroLevelEvents
        { st with
          currentSpan := some id,
          unfinishedSpans := lmUpdate st.unfinishedSpans id (fun n => n.withStarted (some now)) }
    else (st, [])
  | .exitSpan isMain id name parent now =>
    if isMain then
      let node := st.exitingNode id name now
      let spans := lmRemove st.unfinishedSpans id
      match parent with
      | some p =>
        match lmGet spans p with
        | some _ =>
          ({ st with
            unfinishedSpans := lmUpdate spans p (fun pn => pn.addChild node),
            currentSpan := some p }, [])
        | none =>
          ({ st with unfinishedSpans := spans }, [])
      | none =>
        ({ st with unfinishedSpans := spans, currentSpan := none },
          [.tree (GraphNode.printedNode cfg node)])
    else (st, [])
  | .event isMain e isRoot explicitParent ctxCurrent =>
    if isRoot then (st, [])
    else
      let target := if isMain then explicitParent.orElse (fun _ => ctxCurrent)
        else st.currentSpan
      match target with
      | some sid =>
        match lmGet st.unfinishedSpans sid with
        | some _ =>
          let spans := lmUpdate st.unfinishedSpans sid
            (fun n => n.withEvents (n.events.record e).1)
          ({ st with unfinishedSpans := spans }, [])
        | none => (st, [])
      | none =>
        ({ st with zeroLevelEvents := (st.zeroLevelEvents.record e).1 }, [])
  | .guardDrop => st.printZeroLevelEvents

/-! ### Concrete instances used by counterexamples and witnesses -/

/-- A child span named `x` of 5ns: 0.5% of a 1000ns root. -/
def xChild : GraphNode := .mk "x" none 5 [] EventCounts.empty [] 1

/-- A root of 1000ns with three consecutive children named `x`, 5ns each. -/
def tripleRunRoot : GraphNode :=
  .mk "root" none 1000 [] EventCounts.empty [xChild, xChild, xChild] 1

/-- A 5ns child named `a`: 0.5% of a 1000ns root, below the default 1%
hide threshold. -/
def smallChild : GraphNode := .mk "a" none 5 [] EventCounts.empty [] 1

/-- A 50ns child named `b`: 5% of a 1000ns root. -/
def bigChild : GraphNode := .mk "b" none 50 [] EventCounts.empty [] 1

/-- 5% child for the [5%, 0.3%, 0.4%, 5%] example. -/
def pctChild1 : GraphNode := .mk "c1" none 50 [] EventCounts.empty [] 1

/-- 0.3% child for the [5%, 0.3%, 0.4%, 5%] example. -/
def pctChild2 : GraphNode := .mk "c2" none 3 [] EventCounts.empty [] 1

/-- 0.4% child for the [5%, 0.3%, 0.4%, 5%] example. -/
def pctChild3 : GraphNode := .mk "c3" none 4 [] EventCounts.empty [] 1

/-- Trailing 5% child for the [5%, 0.3%, 0.4%, 5%] example. -/
def pctChild4 : GraphNode := .mk "c4" none 50 [] EventCounts.empty [] 1

/-- A counter-marked event that carries fields (`counter = true`,
`value = 3`). -/
def counterEvent : Event := ⟨"proof_size", [("counter", .b true), ("value", .u 3)]⟩

/-- A counter-marked event with no numeric `value` field. -/
def valuelessCounterEvent : Event := ⟨"proof_size", [("counter", .b true)]⟩

/-- A registry with an open parent span (id 1) and an open entered child
span (id 2). -/
def twoSpanState : LayerState :=
  ⟨some 2,
    [(1, GraphNode.new "parent"), (2, (GraphNode.new "child").withStarted (some 10))],
    EventCounts.empty⟩

/-- Leaf `C` of the chain example, with one event. -/
def chainC : GraphNode := .mk "C" none 10 [] ⟨[("e", .int 4), ("g", .int 1)]⟩ [] 1

/-- Middle node `B` of the chain example. -/
def chainB : GraphNode := .mk "B" none 20 [] ⟨[("e", .int 2)]⟩ [chainC] 1

/-- Root `A` of the chain example `A → B → C`. -/
def chainA : GraphNode := .mk "A" none 30 [] ⟨[("e", .int 1), ("f", .int 7)]⟩ [chainB] 1

/-- Does the event carry a numeric field named `value` (the kinds
`CounterVisitor` stores into `value`)? -/
def FieldValue.isNumeric : FieldValue → Bool
  | .u _ => true
  | .i _ => true
  | .f _ => true
  | .b _ => false
  | .s _ => false

/-- Whether an event carries a numeric `value` field. -/
def Event.hasNumericValue (e : Event) : Bool :=
  e.fields.any (fun p => p.1 = "value" && p.2.isNumeric)

/-- The children lists the registry holds, by span id: the observable that
claim C7 is about. -/
def spanChildren (st : LayerState) (sid : Nat) : Option (List GraphNode) :=
  (lmGet st.unfinishedSpans sid).map GraphNode.childNodes

/-! ### Association-list lemmas -/

section LmLemmas

variable {κ α : Type} [DecidableEq κ]

theorem lmGet_lmInsert_ne (m : List (κ × α)) (k0 k : κ) (v : α) (h : k ≠ k0) :
    lmGet (lmInsert m k0 v) k = lmGet m k := by
  induction m with
  | nil => simp [lmInsert, lmGet, (Ne.symm h)]
  | cons p rest ih =>
    by_cases hp : p.1 = k0
    · simp [lmInsert, lmGet, hp, Ne.symm h]
    · simp only [lmInsert, hp, if_false, lmGet]
      by_cases hk : p.1 = k <;> simp [hk, ih]

theorem lmGet_lmUpdate_self (m : List (κ × α)) (k : κ) (f : α → α) :
    lmGet (lmUpdate m k f) k = (lmGet m k).map f := by
  induction m with
  | nil => simp [lmUpdate, lmGet]
  | cons p rest ih =>
    by_cases hp : p.1 = k
    · simp [lmUpdate, lmGet, hp]
    · simp [lmUpdate, lmGet, hp, ih]

theorem lmGet_lmUpdate_ne (m : List (κ × α)) (k0 k : κ) (f : α → α) (h : k ≠ k0) :
    lmGet (lmUpdate m k0 f) k = lmGet m k := by
  induction m with
  | nil => simp [lmUpdate]
  | cons p rest ih =>
    by_cases hp : p.1 = k0
    · simp [lmUpdate, lmGet, hp, Ne.symm h]
    · simp only [lmUpdate, hp, if_false, lmGet]
      by_cases hk : p.1 = k <;> simp [hk, ih]

theorem lmGet_lmRemove_ne (m : List (κ × α)) (k0 k : κ) (h : k ≠ k0) :
    lmGet (lmRemove m k0) k = lmGet m k := by
  induction m with
  | nil => simp [lmRemove]
  | cons p rest ih =>
    by_cases hp : p.1 = k0
    · simp [lmRemove, lmGet, hp, Ne.symm h]
    · simp only [lmRemove, hp, if_false, lmGet]
      by_cases hk : p.1 = k <;> simp [hk, ih]

theorem lmGet_append_ne (m : List (κ × α)) (k0 k : κ) (v : α) (h : k ≠ k0) :
    lmGet (m ++ [(k0, v)]) k = lmGet m k := by
  induction m with
  | nil => simp [lmGet, Ne.symm h]
  | cons p rest ih =>
    by_cases hk : p.1 = k <;> simp [lmGet, hk, ih]

theorem lmGet_append_self (m : List (κ × α)) (k : κ) (v : α) (h : lmGet m k = none) :
    lmGet (m ++ [(k, v)]) k = some v := by
  induction m with
  | nil => simp [lmGet]
  | cons p rest ih =>
    by_cases hk : p.1 = k
    · simp [lmGet, hk] at h
    · simp only [lmGet, hk, if_false] at h
      simp [lmGet, hk, ih h]

theorem keys_lmUpdate (m : List (κ × α)) (k : κ) (f : α → α) :
    (lmUpdate m k f).map Prod.fst = m.map Prod.fst := by
  induction m with
  | nil => simp [lmUpdate]
  | cons p rest ih =>
    by_cases hp : p.1 = k <;> simp [lmUpdate, hp, ih]

theorem lmGet_eq_none_iff (m : List (κ × α)) (k : κ) :
    lmGet m k = none ↔ k ∉ m.map Prod.fst := by
  induction m with
  | nil => simp [lmGet]
  | cons p rest ih =>
    by_cases hp : p.1 = k
    · simp [lmGet, hp]
    · simp [lmGet, hp, ih, Ne.symm hp]

end LmLemmas

/-! ### `EventCounts` merge lemmas -/

theorem lmGet_ecAdd1_self (m : List (String × CounterValue)) (k : String) (v : CounterValue) :
    lmGet (ecAdd1 m k v) k = optAdd (lmGet m k) (some v) := by
  unfold ecAdd1
  cases h : lmGet m k with
  | some w => simp [lmGet_lmUpdate_self, h, optAdd]
  | none => simp [lmGet_append_self m k v h, h, optAdd]

theorem lmGet_ecAdd1_ne (m : List (String × CounterValue)) (k0 k : String)
    (v : CounterValue) (h : k ≠ k0) :
    lmGet (ecAdd1 m k0 v) k = lmGet m k := by
  unfold ecAdd1
  cases h0 : lmGet m k0 with
  | some w => simp [lmGet_lmUpdate_ne _ _ _ _ h]
  | none => simp [lmGet_append_ne _ _ _ _ h]

theorem keys_ecAdd1 (m : List (String × CounterValue)) (k : String) (v : CounterValue) :
    (ecAdd1 m k v).map Prod.fst = m.map Prod.fst ∨
      (ecAdd1 m k v).map Prod.fst = m.map Prod.fst ++ [k] := by
  unfold ecAdd1
  cases h : lmGet m k with
  | some w => simp [keys_lmUpdate]
  | none => simp

theorem nodupKeys_ecAdd1 (m : List (String × CounterValue)) (k : String) (v : CounterValue)
    (h : (m.map Prod.fst).Nodup) : ((ecAdd1 m k v).map Prod.fst).Nodup := by
  unfold ecAdd1
  cases h0 : lmGet m k with
  | some w => simpa [keys_lmUpdate] using h
  | none =>
    rw [lmGet_eq_none_iff] at h0
    simp [List.nodup_append, h, h0]

theorem foldl_ecAdd1_lookup (ys : List (String × CounterValue))
    (x : List (String × CounterValue)) (k : String)
    (hys : (ys.map Prod.fst).Nodup) :
    lmGet (ys.foldl (fun m p => ecAdd1 m p.1 p.2) x) k =
      optAdd (lmGet x k) (lmGet ys k) := by
  induction ys generalizing x with
  | nil =>
    simp only [List.foldl_nil]
    cases h : lmGet x k <;> simp [lmGet, optAdd, h]
  | cons p rest ih =>
    simp only [List.map_cons, List.nodup_cons] at hys
    simp only [List.foldl_cons]
    rw [ih _ hys.2]
    by_cases hk : k = p.1
    · subst hk
      have hrest : lmGet rest p.1 = none := by
        rw [lmGet_eq_none_iff]; exact hys.1
      rw [lmGet_ecAdd1_self, hrest]
      simp only [lmGet, if_pos rfl]
      cases lmGet x p.1 <;> simp [optAdd]
    · have hpk : p.1 ≠ k := fun hh => hk hh.symm
      rw [lmGet_ecAdd1_ne _ _ _ _ hk]
      simp only [lmGet, if_neg hpk]

theorem lmGet_addAssign (x y : EventCounts) (hy : y.WF) (k : String) :
    lmGet (x.addAssign y).counters k = optAdd (lmGet x.counters k) (lmGet y.counters k) :=
  foldl_ecAdd1_lookup y.counters x.counters k hy

theorem WF_addAssign (x y : EventCounts) (hx : x.WF) : (x.addAssign y).WF := by
  unfold EventCounts.addAssign EventCounts.WF
  induction y.counters generalizing x with
  | nil => exact hx
  | cons p rest ih =>
    simp only [List.foldl_cons]
    exact ih ⟨ecAdd1 x.counters p.1 p.2⟩ (nodupKeys_ecAdd1 _ _ _ hx)

/-! ### `GraphNode` accessor lemmas -/

theorem childNodes_withName (n : GraphNode) (nm : String) :
    (n.withName nm).childNodes = n.childNodes := by
  cases n; rfl

theorem childNodes_withStarted (n : GraphNode) (st : Option Nat) :
    (n.withStarted st).childNodes = n.childNodes := by
  cases n; rfl

theorem childNodes_withDuration (n : GraphNode) (d : Nat) :
    (n.withDuration d).childNodes = n.childNodes := by
  cases n; rfl

theorem childNodes_withMetadata (n : GraphNode) (md : List (String × String)) :
    (n.withMetadata md).childNodes = n.childNodes := by
  cases n; rfl

theorem childNodes_withEvents (n : GraphNode) (ev : EventCounts) :
    (n.withEvents ev).childNodes = n.childNodes := by
  cases n; rfl

theorem childNodes_addChild (n c : GraphNode) :
    (n.addChild c).childNodes = n.childNodes ++ [c] := by
  cases n; rfl

/-! ### Helper lemmas on percentages, flushing, and recording -/

theorem execPct_eq (n : GraphNode) (rootTime : Nat) :
    n.executionPercentage rootTime =
      if rootTime = 0 then
        (if n.executionDuration = 0 then F64Val.nan else F64Val.posInf)
      else F64Val.fin (100 * (n.executionDuration : ℚ) / (rootTime : ℚ)) := by
  unfold GraphNode.executionPercentage fdiv asSecsF64
  by_cases hr : rootTime = 0
  · subst hr
    simp only [Nat.cast_zero, zero_div, if_pos rfl, if_pos trivial]
    by_cases hd : n.executionDuration = 0
    · rw [hd]; norm_num
    · have hpos : (0 : ℚ) < 100 * ((n.executionDuration : ℚ) / 1000000000) := by
        have := Nat.pos_of_ne_zero hd
        positivity
      simp [ne_of_gt hpos, hpos, hd]
  · have hcast : (rootTime : ℚ) ≠ 0 := Nat.cast_ne_zero.mpr hr
    have hb : ((rootTime : ℚ) / 1000000000) ≠ 0 := by positivity
    rw [if_neg hb, if_neg hr]
    congr 1
    field_simp

theorem printZero_spans (s : LayerState) :
    s.printZeroLevelEvents.1.unfinishedSpans = s.unfinishedSpans := by
  unfold LayerState.printZeroLevelEvents
  split <;> rfl

theorem isEmpty_eq_empty (ec : EventCounts) (h : ec.isEmpty = true) :
    ec = EventCounts.empty := by
  cases ec with
  | mk cs =>
    unfold EventCounts.isEmpty at h
    simp only [List.isEmpty_iff] at h
    simp [EventCounts.empty, h]

theorem printZero_zero (s : LayerState) :
    s.printZeroLevelEvents.1.zeroLevelEvents = EventCounts.empty := by
  unfold LayerState.printZeroLevelEvents
  by_cases h : s.zeroLevelEvents.isEmpty
  · rw [if_pos h]
    exact isEmpty_eq_empty _ h
  · rw [if_neg h]

theorem printZero_out (s : LayerState) :
    s.printZeroLevelEvents.2 =
      (if s.zeroLevelEvents.isEmpty then []
       else [OutputItem.zeroEvents s.zeroLevelEvents.format]) := by
  unfold LayerState.printZeroLevelEvents
  split <;> rfl

theorem lmGet_increment_ne (ec : EventCounts) (nm k : String) (h : k ≠ nm) :
    lmGet (ec.incrementEventsCounter nm).counters k = lmGet ec.counters k := by
  unfold EventCounts.incrementEventsCounter
  cases h0 : lmGet ec.counters nm <;>
    simp [lmGet_lmUpdate_ne _ _ _ _ h, lmGet_append_ne _ _ _ _ h]

theorem lmGet_increment_self_isSome (ec : EventCounts) (nm : String) :
    (lmGet (ec.incrementEventsCounter nm).counters nm).isSome = true := by
  unfold EventCounts.incrementEventsCounter
  cases h0 : lmGet ec.counters nm with
  | some w => simp [lmGet_lmUpdate_self, h0]
  | none => simp [lmGet_append_self _ _ _ h0]

theorem foldl_visit_value_none (fields : List (String × FieldValue)) :
    ∀ cv : CounterVisitor, cv.value = none →
    (fields.any (fun p => p.1 = "value" && p.2.isNumeric)) = false →
    (fields.foldl CounterVisitor.visit cv).value = none := by
  induction fields with
  | nil => intro cv hv _; simpa using hv
  | cons p rest ih =>
    intro cv hv hall
    simp only [List.any_cons, Bool.or_eq_false_iff] at hall
    obtain ⟨hp, hrest⟩ := hall
    simp only [List.foldl_cons]
    apply ih _ _ hrest
    unfold CounterVisitor.visit
    cases hfv : p.2 with
    | u v =>
      have : ¬ p.1 = "value" := by
        intro hname
        rw [hname, hfv] at hp
        simp [FieldValue.isNumeric] at hp
      simp [this, hv]
    | i v =>
      have : ¬ p.1 = "value" := by
        intro hname
        rw [hname, hfv] at hp
        simp [FieldValue.isNumeric] at hp
      simp [this, hv]
    | f v =>
      have : ¬ p.1 = "value" := by
        intro hname
        rw [hname, hfv] at hp
        simp [FieldValue.isNumeric] at hp
      simp [this, hv]
    | b v =>
      by_cases h1 : p.1 = "counter" <;> by_cases h2 : p.1 = "incremental" <;>
        simp [h1, h2, hv]
    | s v =>
      by_cases h1 : p.1 = "perfetto_category" <;> by_cases h2 : p.1 = "unit" <;>
        simp [h1, h2, hv]

/-! ### Claim theorems -/

/-- C1 counterexample: on the code, `CounterValue::Int(3) + CounterValue::Float(2.5)`
is `Int(5)` — the float operand is truncated with `as u64` — not `Float(5.5)`
as the claim states. -/
theorem counterValue_int_plus_float_counterexample :
    CounterValue.addAssign (.int 3) (.float (5 / 2)) = CounterValue.int 5 ∧
    CounterValue.addAssign (.int 3) (.float (5 / 2)) ≠ CounterValue.float (11 / 2) := by
  have hfloor : (⌊(5 / 2 : ℚ)⌋ : Int) = 2 := by norm_num
  constructor
  · show CounterValue.int ((3 + ratToU64 (5 / 2)) % U64) = CounterValue.int 5
    unfold ratToU64 U64
    rw [hfloor]
    norm_num [show (2 : Int).toNat = 2 from rfl]
  · intro h
    exact CounterValue.noConfusion h

/-- C1 (amended): adding two `CounterValue`s keeps the *left* operand's tag:
`Int + Int` stays `Int` with a wrapped sum (`Int(3) + Int(4) = Int(7)`);
`Float` on the left absorbs the right operand, converting an `Int`
(`Float(2.5) + Int(3) = Float(5.5)`); but `Int` on the left stays `Int`,
truncating a `Float` right operand toward zero
(`Int(3) + Float(2.5) = Int(5)`). -/
theorem counterValue_add_keeps_left_tag :
    (∀ a b : Nat, CounterValue.addAssign (.int a) (.int b) = .int ((a + b) % U64)) ∧
    (∀ (a : ℚ) (b : Nat), CounterValue.addAssign (.float a) (.int b) = .float (a + b)) ∧
    (∀ a b : ℚ, CounterValue.addAssign (.float a) (.float b) = .float (a + b)) ∧
    (∀ l r : CounterValue, (CounterValue.addAssign l r).isInt = l.isInt) ∧
    CounterValue.addAssign (.int 3) (.int 4) = CounterValue.int 7 ∧
    CounterValue.addAssign (.float (5 / 2)) (.int 3) = CounterValue.float (11 / 2) ∧
    CounterValue.addAssign (.int 3) (.float (5 / 2)) = CounterValue.int 5 := by
  refine ⟨fun a b => rfl, fun a b => rfl, fun a b => rfl, ?_, ?_, ?_, ?_⟩
  · intro l r
    cases l <;> cases r <;> rfl
  · show CounterValue.int ((3 + 4) % U64) = CounterValue.int 7
    unfold U64
    norm_num
  · show CounterValue.float (5 / 2 + ((3 : Nat) : ℚ)) = CounterValue.float (11 / 2)
    norm_num
  · have hfloor : (⌊(5 / 2 : ℚ)⌋ : Int) = 2 := by norm_num
    show CounterValue.int ((3 + ratToU64 (5 / 2)) % U64) = CounterValue.int 5
    unfold ratToU64 U64
    rw [hfloor]
    norm_num [show (2 : Int).toNat = 2 from rfl]

/-- C5 counterexample: `execution_percentage` with a zero root duration does
*not* return 0%: it yields `NaN` (zero duration) or `+∞` (positive
duration). -/
theorem executionPercentage_zero_root_counterexample :
    GraphNode.executionPercentage (GraphNode.new "root") 0 = F64Val.nan ∧
    GraphNode.executionPercentage ((GraphNode.new "root").withDuration 5) 0 = F64Val.posInf ∧
    F64Val.nan ≠ F64Val.fin 0 ∧ F64Val.posInf ≠ F64Val.fin 0 := by
  refine ⟨?_, ?_, by simp, by simp⟩
  · rw [execPct_eq]
    norm_num [GraphNode.new, GraphNode.executionDuration]
  · rw [execPct_eq]
    norm_num [GraphNode.new, GraphNode.withDuration, GraphNode.executionDuration]

/-- C5 (amended): `executionPercentage(node, rootDuration)` equals
`100 * node.duration / rootDuration` whenever `rootDuration` is nonzero; when
`rootDuration` is zero the code performs the division anyway and the result
is `NaN` (for a zero duration) or `+∞` (for a positive one), not 0%. -/
theorem executionPercentage_formula (n : GraphNode) (rootTime : Nat) :
    n.executionPercentage rootTime =
      if rootTime = 0 then
        (if n.executionDuration = 0 then F64Val.nan else F64Val.posInf)
      else F64Val.fin (100 * (n.executionDuration : ℚ) / (rootTime : ℚ)) :=
  execPct_eq n rootTime

/-- C10: recording a counter-marked event (`counter = true`) that carries no
numeric `value` field emits the non-fatal `err_msg!` diagnostic (the returned
flag) and leaves the accumulator completely unchanged — no key inserted, no
count modified. -/
theorem counter_event_without_value_is_noop (ec : EventCounts) (e : Event)
    (hne : e.fields ≠ [])
    (hc : (runCounterVisitor e.fields).is_counter = true)
    (hv : e.hasNumericValue = false) :
    EventCounts.record ec e = (ec, true) := by
  have hvalue : (runCounterVisitor e.fields).value = none :=
    foldl_visit_value_none e.fields CounterVisitor.init rfl hv
  have hempty : e.fields.isEmpty = false := by
    cases hf : e.fields with
    | nil => exact absurd hf hne
    | cons p rest => rfl
  unfold EventCounts.record
  rw [hempty]
  simp only [Bool.false_eq_true, if_false, hc, if_true, hvalue]
  cases h0 : lmGet ec.counters e.name <;> simp

/-- C10 witness: a concrete counter event with only the `counter = true`
field, recorded into a non-empty accumulator, errors and changes nothing. -/
theorem counter_event_without_value_is_noop_witness :
    valuelessCounterEvent.fields ≠ [] ∧
    (runCounterVisitor valuelessCounterEvent.fields).is_counter = true ∧
    valuelessCounterEvent.hasNumericValue = false ∧
    EventCounts.record ⟨[("k", CounterValue.int 2)]⟩ valuelessCounterEvent =
      (⟨[("k", CounterValue.int 2)]⟩, true) :=
  ⟨by decide, by decide, by decide,
    counter_event_without_value_is_noop ⟨[("k", CounterValue.int 2)]⟩
      valuelessCounterEvent (by decide) (by decide) (by decide)⟩

/-- C6 counterexample: a counter-marked event *with* fields is counted under
the bare event name, not under the synthesized
`"name { field: value, ... }"` signature the claim requires for every event
that carries fields. -/
theorem counter_event_not_keyed_by_signature :
    counterEvent.fields ≠ [] ∧
    (EventCounts.record EventCounts.empty counterEvent).1.counters =
      [("proof_size", CounterValue.int 3)] ∧
    eventSignature counterEvent = "proof_size \x7b counter: true, value: 3 \x7d" ∧
    lmGet (EventCounts.record EventCounts.empty counterEvent).1.counters
      (eventSignature counterEvent) = none := by
  refine ⟨by decide, by decide, by decide, by decide⟩

/-- C6 (amended): `record` files every event under a single signature key —
the event name when the event has no fields, the event name again when the
event is counter-marked (regardless of its fields), and the synthesized
`"name { field: value, ... }"` string otherwise.  Every other key is left
untouched, and whenever no diagnostic fires the signature key is present
afterwards.  Signatures are plain strings, equal iff their text is equal. -/
theorem record_touches_only_signature_key (ec : EventCounts) (e : Event) :
    (∀ k : String, k ≠ EventCounts.recordKey e →
      lmGet (ec.record e).1.counters k = lmGet ec.counters k) ∧
    ((ec.record e).2 = false →
      (lmGet (ec.record e).1.counters (EventCounts.recordKey e)).isSome = true) := by
  unfold EventCounts.record EventCounts.recordKey
  cases hf : e.fields.isEmpty with
  | true =>
    simp only [if_true]
    exact ⟨fun k hk => lmGet_increment_ne ec e.name k hk,
      fun _ => lmGet_increment_self_isSome ec e.name⟩
  | false =>
    simp only [Bool.false_eq_true, if_false]
    cases hc : (runCounterVisitor e.fields).is_counter with
    | true =>
      simp only [if_true]
      cases h0 : lmGet ec.counters e.name with
      | none =>
        cases hv : (runCounterVisitor e.fields).value with
        | none =>
          refine ⟨fun k hk => rfl, ?_⟩
          intro h
          simp at h
        | some nv =>
          refine ⟨fun k hk => lmGet_append_ne _ _ _ _ hk, ?_⟩
          intro _
          simp [lmGet_append_self _ _ _ h0]
      | some w =>
        cases hv : (runCounterVisitor e.fields).value with
        | none =>
          refine ⟨fun k hk => rfl, ?_⟩
          intro h
          simp at h
        | some nv =>
          refine ⟨fun k hk => lmGet_lmUpdate_ne _ _ _ _ hk, ?_⟩
          intro _
          simp [lmGet_lmUpdate_self, h0]
    | false =>
      simp only [Bool.false_eq_true, if_false]
      exact ⟨fun k hk => lmGet_increment_ne ec _ k hk,
        fun _ => lmGet_increment_self_isSome ec _⟩

/-- C6 witness: recording a field-free event named `b` into an accumulator
holding key `a` leaves `a` untouched and makes `b` present. -/
theorem record_touches_only_signature_key_witness :
    ("a" ≠ EventCounts.recordKey ⟨"b", []⟩) ∧
    lmGet (EventCounts.record ⟨[("a", CounterValue.int 7)]⟩ ⟨"b", []⟩).1.counters "a" =
      lmGet (⟨[("a", CounterValue.int 7)]⟩ : EventCounts).counters "a" ∧
    (lmGet (EventCounts.record ⟨[("a", CounterValue.int 7)]⟩ ⟨"b", []⟩).1.counters
      (EventCounts.recordKey ⟨"b", []⟩)).isSome = true :=
  ⟨by decide,
    (record_touches_only_signature_key ⟨[("a", CounterValue.int 7)]⟩ ⟨"b", []⟩).1 "a" (by decide),
    (record_touches_only_signature_key ⟨[("a", CounterValue.int 7)]⟩ ⟨"b", []⟩).2 (by decide)⟩

/-- C8: `accumulate_children_events` is the identity (hence idempotent) on a
node with no children; and on a chain `A → B → C` the accumulated events of
`A` are the key-wise sum of the original events of `A`, `B` and `C` (summed
bottom-up, as the code folds them). -/
theorem accumulate_children_events_chain :
    (∀ (n : GraphNode) (sc : Bool), n.childNodes = [] →
      n.accumulateChildrenEvents sc = n ∧
      (n.accumulateChildrenEvents sc).accumulateChildrenEvents sc =
        n.accumulateChildrenEvents sc) ∧
    (∀ a b c : GraphNode, a.childNodes = [b] → b.childNodes = [c] →
      c.childNodes = [] → b.events.WF → c.events.WF →
      ∀ k : String,
        lmGet (a.accumulateChildrenEvents false).events.counters k =
          optAdd (lmGet a.events.counters k)
            (optAdd (lmGet b.events.counters k) (lmGet c.events.counters k))) := by
  have hid : ∀ (n : GraphNode) (sc : Bool), n.childNodes = [] →
      n.accumulateChildrenEvents sc = n := by
    intro n sc h
    cases n with
    | mk nm st d md ev cs cc =>
      simp only [GraphNode.childNodes] at h
      subst h
      rw [GraphNode.accumulateChildrenEvents, GraphNode.accumulateChildrenList]
  constructor
  · intro n sc h
    have h1 := hid n sc h
    exact ⟨h1, by rw [h1, h1]⟩
  · intro a b c ha hb hc hwb hwc k
    cases a with
    | mk nmA stA dA mdA evA csA ccA =>
      simp only [GraphNode.childNodes] at ha
      subst ha
      have hcacc : c.accumulateChildrenEvents false = c := hid c false hc
      have hbacc : (b.accumulateChildrenEvents false).events = b.events.addAssign c.events := by
        cases b with
        | mk nmB stB dB mdB evB csB ccB =>
          simp only [GraphNode.childNodes] at hb
          subst hb
          rw [GraphNode.accumulateChildrenEvents, GraphNode.accumulateChildrenList,
            GraphNode.accumulateChildrenList]
          simp only [if_neg (Bool.false_ne_true), hcacc]
          rfl
      rw [GraphNode.accumulateChildrenEvents, GraphNode.accumulateChildrenList,
        GraphNode.accumulateChildrenList]
      simp only [if_neg (Bool.false_ne_true)]
      rw [hbacc]
      show lmGet (evA.addAssign (b.events.addAssign c.events)).counters k =
        optAdd (lmGet evA.counters k)
          (optAdd (lmGet b.events.counters k) (lmGet c.events.counters k))
      rw [lmGet_addAssign evA (b.events.addAssign c.events) (WF_addAssign b.events c.events hwb) k,
        lmGet_addAssign b.events c.events hwc k]

/-- C8 witness: the chain `chainA → chainB → chainC` with concrete events,
evaluated at key `"e"`; plus identity on the childless `chainC`. -/
theorem accumulate_children_events_chain_witness :
    chainC.accumulateChildrenEvents true = chainC ∧
    lmGet (chainA.accumulateChildrenEvents false).events.counters "e" =
      optAdd (lmGet chainA.events.counters "e")
        (optAdd (lmGet chainB.events.counters "e") (lmGet chainC.events.counters "e")) :=
  ⟨(accumulate_children_events_chain.1 chainC true rfl).1,
    accumulate_children_events_chain.2 chainA chainB chainC rfl rfl rfl
      (by unfold EventCounts.WF; decide) (by unfold EventCounts.WF; decide) "e"⟩

/-- C2: the failing input.  Three consecutive children named `x`, 0.5% of the
root each, with `relevant_above_percent = 2.5%`: the code merges only the
first two (`call_count = 2`, duration 10ns of 15ns) and silently drops the
third, because the end-of-run branch pushes the pending aggregate *instead
of* the current child.  The claim's `callCount = 3` with the summed duration
does not hold. -/
theorem sibling_run_merge_drops_last :
    tripleRunRoot.buildChildren 1000 Config.defaults =
      [GraphNode.mk "x" none 10 [] EventCounts.empty [] 2] := by
  have hgt : (xChild.executionPercentage 1000).gtQ
      Config.defaults.relevant_above_percent = false := by
    rw [execPct_eq]
    norm_num [xChild, GraphNode.executionDuration, Config.defaults, F64Val.gtQ]
  have hnm : xChild.name = "x" := rfl
  have hagg : xChild.aggregate xChild = GraphNode.mk "x" none 10 [] EventCounts.empty [] 2 := rfl
  simp only [GraphNode.buildChildren, tripleRunRoot, GraphNode.childNodes]
  simp [GraphNode.renderChildrenGo, hgt, hnm, hagg, lmGet, lmInsert]

/-- C3: two evaluations of the collapsing stage.  The claim's own example
works: children at [5%, 0.3%, 0.4%, 5%] with `hide_below_percent = 1%`
produce exactly one `"[...]"` bucket of 0.7%.  But a sub-threshold child in
the *first* position is silently dropped, not folded into a bucket:
[0.5%, 5%] collapses to just the 5% child, contradicting the claim's
"regardless of its position among the siblings, including the first
position". -/
theorem collapse_drops_leading_subthreshold :
    GraphNode.collapseChildren 1000 Config.defaults [smallChild, bigChild] = [bigChild] ∧
    GraphNode.collapseChildren 1000 Config.defaults
        [pctChild1, pctChild2, pctChild3, pctChild4] =
      [pctChild1, GraphNode.mk "[...]" none 7 [] EventCounts.empty [] 2, pctChild4] := by
  have hpos : Config.defaults.hide_below_percent > 0 := by
    norm_num [Config.defaults]
  have hs : (smallChild.executionPercentage 1000).ltQ
      Config.defaults.hide_below_percent = true := by
    rw [execPct_eq]
    norm_num [smallChild, GraphNode.executionDuration, Config.defaults, F64Val.ltQ]
  have hbig : (bigChild.executionPercentage 1000).ltQ
      Config.defaults.hide_below_percent = false := by
    rw [execPct_eq]
    norm_num [bigChild, GraphNode.executionDuration, Config.defaults, F64Val.ltQ]
  have h1 : (pctChild1.executionPercentage 1000).ltQ
      Config.defaults.hide_below_percent = false := by
    rw [execPct_eq]
    norm_num [pctChild1, GraphNode.executionDuration, Config.defaults, F64Val.ltQ]
  have h2 : (pctChild2.executionPercentage 1000).ltQ
      Config.defaults.hide_below_percent = true := by
    rw [execPct_eq]
    norm_num [pctChild2, GraphNode.executionDuration, Config.defaults, F64Val.ltQ]
  have h3 : (pctChild3.executionPercentage 1000).ltQ
      Config.defaults.hide_below_percent = true := by
    rw [execPct_eq]
    norm_num [pctChild3, GraphNode.executionDuration, Config.defaults, F64Val.ltQ]
  have h4 : (pctChild4.executionPercentage 1000).ltQ
      Config.defaults.hide_below_percent = false := by
    rw [execPct_eq]
    norm_num [pctChild4, GraphNode.executionDuration, Config.defaults, F64Val.ltQ]
  have hname1 : pctChild1.name = "c1" := rfl
  have hnameB : (GraphNode.mk "[...]" none 3 [] EventCounts.empty [] 1).name = "[...]" := rfl
  have hbucket2 : (GraphNode.new "[...]").aggregate pctChild2 =
      GraphNode.mk "[...]" none 3 [] EventCounts.empty [] 1 := rfl
  have hbucket3 : (GraphNode.mk "[...]" none 3 [] EventCounts.empty [] 1).aggregate pctChild3 =
      GraphNode.mk "[...]" none 7 [] EventCounts.empty [] 2 := rfl
  constructor
  · simp only [GraphNode.collapseChildren, if_pos hpos, List.foldl_cons, List.foldl_nil]
    simp [GraphNode.collapseStep, hs, hbig]
  · simp only [GraphNode.collapseChildren, if_pos hpos, List.foldl_cons, List.foldl_nil]
    simp [GraphNode.collapseStep, h1, h2, h3, h4, hname1, hnameB, hbucket2, hbucket3]

/-- C4 counterexample: no configuration defers root rendering — there is no
choice of `Config` (the full configuration space of the source) under which a
completed root's exit produces no output, so the claimed
defer-printing-to-shutdown mode does not exist. -/
theorem no_deferred_config :
    ¬ ∃ cfg : Config,
      (LayerState.step cfg LayerState.empty (Op.exitSpan true 1 "root" none 100)).2 = [] := by
  rintro ⟨cfg, h⟩
  simp [LayerState.step] at h

/-- C4 (amended): only the immediate mode exists.  The configuration has no
defer-printing-to-shutdown option; under *every* configuration a root node
(exit with no parent, on the main thread) renders the instant its exit fires,
and releasing the guard flushes only pending zero-level events, never a
buffered root tree. -/
theorem roots_render_immediately (cfg : Config) (st : LayerState) :
    (∀ (sid : Nat) (nm : String) (now : Nat),
      (LayerState.step cfg st (Op.exitSpan true sid nm none now)).2 =
        [OutputItem.tree (GraphNode.printedNode cfg (st.exitingNode sid nm now))]) ∧
    (LayerState.step cfg st Op.guardDrop).2 =
      (if st.zeroLevelEvents.isEmpty then []
       else [OutputItem.zeroEvents st.zeroLevelEvents.format]) := by
  constructor
  · intro sid nm now
    simp [LayerState.step]
  · show st.printZeroLevelEvents.2 = _
    exact printZero_out st

/-- C9: how each lifecycle operation treats the zero-level event buffer: span
creation, attribute recording and span exit leave it untouched; an event with
no resolvable attribution target is added to it; entering a span on the main
thread and dropping the guard (process shutdown) empty it, emitting its
formatted contents to the output exactly when it was non-empty — so buffered
zero-level events are flushed at the next span entry (in particular before
the next root-level span runs) or at shutdown, and are never silently
dropped. -/
theorem zero_level_events_flushed_never_dropped (cfg : Config) (st : LayerState) :
    (∀ (im : Bool) (sid : Nat) (attrs : List (String × String)),
      (LayerState.step cfg st (Op.newSpan im sid attrs)).1.zeroLevelEvents =
        st.zeroLevelEvents ∧
      (LayerState.step cfg st (Op.newSpan im sid attrs)).2 = []) ∧
    (∀ (im : Bool) (sid : Nat) (vals : List (String × String)),
      (LayerState.step cfg st (Op.recordSpan im sid vals)).1.zeroLevelEvents =
        st.zeroLevelEvents ∧
      (LayerState.step cfg st (Op.recordSpan im sid vals)).2 = []) ∧
    (∀ (im : Bool) (sid : Nat) (nm : String) (parent : Option Nat) (now : Nat),
      (LayerState.step cfg st (Op.exitSpan im sid nm parent now)).1.zeroLevelEvents =
        st.zeroLevelEvents) ∧
    (∀ (sid now : Nat),
      (LayerState.step cfg st (Op.enterSpan true sid now)).1.zeroLevelEvents =
        EventCounts.empty ∧
      (LayerState.step cfg st (Op.enterSpan true sid now)).2 =
        (if st.zeroLevelEvents.isEmpty then []
         else [OutputItem.zeroEvents st.zeroLevelEvents.format])) ∧
    (∀ (sid now : Nat),
      (LayerState.step cfg st (Op.enterSpan false sid now)).1.zeroLevelEvents =
        st.zeroLevelEvents) ∧
    (∀ (im : Bool) (e : Event) (ir : Bool) (ep cc : Option Nat),
      (LayerState.step cfg st (Op.event im e ir ep cc)).1.zeroLevelEvents =
        (if ir then st.zeroLevelEvents
         else match (if im then ep.orElse (fun _ => cc) else st.currentSpan) with
           | some _ => st.zeroLevelEvents
           | none => (st.zeroLevelEvents.record e).1)) ∧
    ((LayerState.step cfg st Op.guardDrop).1.zeroLevelEvents = EventCounts.empty ∧
      (LayerState.step cfg st Op.guardDrop).2 =
        (if st.zeroLevelEvents.isEmpty then []
         else [OutputItem.zeroEvents st.zeroLevelEvents.format])) := by
  refine ⟨?_, ?_, ?_, ?_, ?_, ?_, ?_, ?_⟩
  · intro im sid attrs
    cases im <;> simp [LayerState.step]
  · intro im sid vals
    cases im <;> simp [LayerState.step]
  · intro im sid nm parent now
    cases im with
    | false => rfl
    | true =>
      simp only [LayerState.step, if_pos rfl]
      cases parent with
      | none => rfl
      | some p => cases h : lmGet (lmRemove st.unfinishedSpans sid) p <;> simp [h]
  · intro sid now
    constructor
    · show (LayerState.printZeroLevelEvents _).1.zeroLevelEvents = _
      exact printZero_zero _
    · show (LayerState.printZeroLevelEvents _).2 = _
      rw [printZero_out]
  · intro sid now
    rfl
  · intro im e ir ep cc
    cases ir with
    | true => rfl
    | false =>
      simp only [LayerState.step, Bool.false_eq_true, if_false]
      cases htgt : (if im then ep.orElse (fun _ => cc) else st.currentSpan) with
      | none => rfl
      | some sid => cases h : lmGet st.unfinishedSpans sid <;> simp [h]
  · exact printZero_zero st
  · exact printZero_out st

/-- Updating a registry entry with a function that preserves `child_nodes`
preserves every span's observed children list. -/
theorem spanChildren_lmUpdate (m : List (Nat × GraphNode)) (sid q : Nat)
    (f : GraphNode → GraphNode) (hf : ∀ n, (f n).childNodes = n.childNodes) :
    (lmGet (lmUpdate m sid f) q).map GraphNode.childNodes =
      (lmGet m q).map GraphNode.childNodes := by
  by_cases hq : q = sid
  · subst hq
    rw [lmGet_lmUpdate_self]
    cases lmGet m q <;> simp [hf]
  · rw [lmGet_lmUpdate_ne _ _ _ _ hq]

/-- C7: `child_nodes` lists grow only at span exit.  When a span exits on the
main thread and its parent is open, the finalized node is appended at the
*end* of the parent's `child_nodes` — so the list records children in exit
order; every other lifecycle operation (and an exit of an unrelated span)
leaves every span's `child_nodes` unchanged. -/
theorem children_appended_only_at_exit (cfg : Config) (st : LayerState) :
    (∀ (sid : Nat) (nm : String) (p now : Nat) (pn : GraphNode),
      lmGet (lmRemove st.unfinishedSpans sid) p = some pn →
      spanChildren (LayerState.step cfg st (Op.exitSpan true sid nm (some p) now)).1 p =
        some (pn.childNodes ++ [st.exitingNode sid nm now])) ∧
    (∀ (im : Bool) (sid : Nat) (nm : String) (parent : Option Nat) (now q : Nat),
      q ≠ sid → (∀ pp, parent = some pp → q ≠ pp) →
      spanChildren (LayerState.step cfg st (Op.exitSpan im sid nm parent now)).1 q =
        spanChildren st q) ∧
    (∀ (im : Bool) (sid : Nat) (attrs : List (String × String)) (q : Nat), q ≠ sid →
      spanChildren (LayerState.step cfg st (Op.newSpan im sid attrs)).1 q =
        spanChildren st q) ∧
    (∀ (im : Bool) (sid : Nat) (vals : List (String × String)) (q : Nat),
      spanChildren (LayerState.step cfg st (Op.recordSpan im sid vals)).1 q =
        spanChildren st q) ∧
    (∀ (im : Bool) (sid now q : Nat),
      spanChildren (LayerState.step cfg st (Op.enterSpan im sid now)).1 q =
        spanChildren st q) ∧
    (∀ (im : Bool) (e : Event) (ir : Bool) (ep cc : Option Nat) (q : Nat),
      spanChildren (LayerState.step cfg st (Op.event im e ir ep cc)).1 q =
        spanChildren st q) ∧
    (∀ q : Nat, spanChildren (LayerState.step cfg st Op.guardDrop).1 q =
      spanChildren st q) := by
  refine ⟨?_, ?_, ?_, ?_, ?_, ?_, ?_⟩
  · intro sid nm p now pn h
    simp [LayerState.step, h, spanChildren, lmGet_lmUpdate_self, childNodes_addChild]
  · intro im sid nm parent now q hq hqp
    cases im with
    | false => rfl
    | true =>
      cases parent with
      | none =>
        simp [LayerState.step, spanChildren, lmGet_lmRemove_ne _ _ _ hq]
      | some pp =>
        have hqpp : q ≠ pp := hqp pp rfl
        cases h : lmGet (lmRemove st.unfinishedSpans sid) pp with
        | some pn =>
          simp [LayerState.step, h, spanChildren, lmGet_lmUpdate_ne _ _ _ _ hqpp,
            lmGet_lmRemove_ne _ _ _ hq]
        | none =>
          simp [LayerState.step, h, spanChildren, lmGet_lmRemove_ne _ _ _ hq]
  · intro im sid attrs q hq
    cases im with
    | false => rfl
    | true =>
      simp [LayerState.step, spanChildren, lmGet_lmInsert_ne _ _ _ _ hq]
  · intro im sid vals q
    cases im with
    | false => rfl
    | true =>
      simp only [LayerState.step, if_pos trivial, spanChildren]
      exact spanChildren_lmUpdate st.unfinishedSpans sid q _
        (fun n => childNodes_withMetadata n _)
  · intro im sid now q
    cases im with
    | false => rfl
    | true =>
      simp only [LayerState.step, if_pos trivial, spanChildren, printZero_spans]
      exact spanChildren_lmUpdate st.unfinishedSpans sid q _
        (fun n => childNodes_withStarted n _)
  · intro im e ir ep cc q
    cases ir with
    | true => rfl
    | false =>
      cases htgt : (if im then ep.orElse (fun _ => cc) else st.currentSpan) with
      | none =>
        simp [LayerState.step, htgt, spanChildren]
      | some sid2 =>
        cases h : lmGet st.unfinishedSpans sid2 with
        | none => simp [LayerState.step, htgt, h, spanChildren]
        | some n =>
          simp only [LayerState.step, Bool.false_eq_true, if_false, htgt, h, spanChildren]
          exact spanChildren_lmUpdate st.unfinishedSpans sid2 q _
            (fun n => childNodes_withEvents n _)
  · intro q
    simp only [LayerState.step, spanChildren, printZero_spans]

/-- C7 witness: in a registry with parent span 1 and entered child span 2,
exiting span 2 with parent 1 appends the finalized child at the end of span
1's children. -/
theorem children_appended_only_at_exit_witness :
    lmGet (lmRemove twoSpanState.unfinishedSpans 2) 1 = some (GraphNode.new "parent") ∧
    spanChildren (LayerState.step Config.defaults twoSpanState
        (Op.exitSpan true 2 "child" (some 1) 30)).1 1 =
      some ((GraphNode.new "parent").childNodes ++ [twoSpanState.exitingNode 2 "child" 30]) :=
  ⟨rfl, (children_appended_only_at_exit Config.defaults twoSpanState).1 2 "child" 1 30
    (GraphNode.new "parent") rfl⟩
